import Mathlib

/-!
Verification of the dive-log application's offline store, EXIF pipeline and
dive-site matcher, shallowly embedded from the TypeScript sources.

Modelling conventions:
- IndexedDB object stores with `keyPath: 'id'` (`src/lib/offline.ts`) are lists
  of records; `put` replaces the record whose key matches, else appends.
- Nondeterministic inputs of the original code (uuidv4, `new Date()`,
  `navigator.onLine`) are explicit parameters.
- External library calls (tz-lookup, `Date`/`toLocaleString` formatting) are
  oracle parameters: arbitrary functions supplied to the embedded code.
- JavaScript truthiness on numbers (`0` falsy) and strings (`""` falsy) is
  modelled explicitly; numeric EXIF fields are rationals, timestamps that the
  code turns into epoch milliseconds are integers.
-/

/-! ## Offline store data model (src/lib/types.ts, src/lib/offline.ts) -/

/-- Representative subset of the `DiveLogFormData` interface of
`src/lib/types.ts` (the claims treated here do not depend on the individual
form fields, only on the record as a whole). -/
structure DiveLogFormData where
  date : String
  diveSiteName : String
  divingTime : Int
  timeStart : String
  timeEnd : String
  maxDepth : Int
  gasMix : String
  notes : String
  isPublic : Bool
  savePhotos : Bool
deriving DecidableEq

/-- The `DivePhoto` interface of `src/lib/types.ts`. -/
structure DivePhoto where
  id : String
  thumbnailUrl : Option String
  exifExtracted : Bool
deriving DecidableEq

/-- A dive log as built by `createLog` in `src/hooks/useDiveLog.ts`: the
form-data spread plus the fields that hook fills in itself. -/
structure DiveLog where
  id : String
  userId : String
  form : DiveLogFormData
  weatherCondition : String
  airTemperature : Int
  windSpeed : Int
  visibility : String
  seaTemperature : Int
  photos : List DivePhoto
  createdAt : String
  updatedAt : String
  isSynced : Bool
deriving DecidableEq

/-- Operation kind of a pending upload (`'create' | 'update' | 'delete'`). -/
inductive OpType where
  | create
  | update
  | delete
deriving DecidableEq

/-- A record of the `pending-uploads` store of `src/lib/offline.ts`. -/
structure PendingUpload where
  id : String
  type : OpType
  data : DiveLog
  timestamp : String
deriving DecidableEq

/-- The two local IndexedDB stores plus the remote backend table.  The
remote table only changes on an actual Supabase write; the hook under
`src/hooks/useDiveLog.ts` never performs one (they are TODO stubs), so the
embedded operations leave `remote` untouched. -/
structure OfflineState where
  diveLogs : List DiveLog
  pending : List PendingUpload
  remote : List DiveLog
deriving DecidableEq

/-- IndexedDB `put` on a store with `keyPath 'id'`: replace the record with
the same key if present, otherwise insert. -/
def putBy {β : Type} (key : β → String) (l : List β) (b : β) : List β :=
  if l.any (fun x => key x == key b) then
    l.map (fun x => if key x == key b then b else x)
  else
    l ++ [b]

/-- `saveDiveLogLocal` of `src/lib/offline.ts`: `db.put('dive-logs', log)`. -/
def saveDiveLogLocal (st : OfflineState) (log : DiveLog) : OfflineState :=
  { st with diveLogs := putBy (fun l => l.id) st.diveLogs log }

/-- `getAllDiveLogsLocal` of `src/lib/offline.ts`. -/
def getAllDiveLogsLocal (st : OfflineState) : List DiveLog :=
  st.diveLogs

/-- `getDiveLogLocal` of `src/lib/offline.ts`: `db.get('dive-logs', id)`. -/
def getDiveLogLocal (st : OfflineState) (id : String) : Option DiveLog :=
  st.diveLogs.find? (fun l => l.id == id)

/-- `addPendingUpload` of `src/lib/offline.ts`: puts
`{id: data.id, type, data, timestamp}` into `pending-uploads`. -/
def addPendingUpload (ty : OpType) (data : DiveLog) (now : String)
    (st : OfflineState) : OfflineState :=
  { st with pending := putBy (fun p => p.id) st.pending ⟨data.id, ty, data, now⟩ }

/-- All pending entries stored under a given log id. -/
def pendingFor (st : OfflineState) (id : String) : List PendingUpload :=
  st.pending.filter (fun p => p.id == id)

/-- The pending entry stored under a given log id
(`db.get('pending-uploads', id)`). -/
def pendingEntry (st : OfflineState) (id : String) : Option PendingUpload :=
  st.pending.find? (fun p => p.id == id)

/-- The log object `createLog` in `src/hooks/useDiveLog.ts` builds before
saving: id from uuid, empty userId, the form spread, blank weather fields,
`createdAt = updatedAt = now`, `isSynced: false`. -/
def mkNewLog (data : DiveLogFormData) (photos : List DivePhoto)
    (id now : String) : DiveLog :=
  ⟨id, "", data, "", 0, 0, "", 0, photos, now, now, false⟩

/-- The in-place mutation `log.isSynced = true` both hooks perform after
the (stubbed) online sync. -/
def syncedOf (l : DiveLog) : DiveLog :=
  { l with isSynced := true }

/-- `createLog` of `src/hooks/useDiveLog.ts`.  Saves locally first; when
online it merely flips `isSynced` to `true` and re-saves (the Supabase write
is a TODO stub), when offline it queues a `create` pending upload. -/
def createLog (data : DiveLogFormData) (photos : List DivePhoto)
    (id now pendNow : String) (online : Bool) (st : OfflineState) :
    DiveLog × OfflineState :=
  let newLog := mkNewLog data photos id now
  let st1 := saveDiveLogLocal st newLog
  if online then
    let synced := syncedOf newLog
    (synced, saveDiveLogLocal st1 synced)
  else
    (newLog, addPendingUpload OpType.create newLog pendNow st1)

/-- The updated log built by `updateLog`: the existing log with the partial
form data spread over it, a fresh `updatedAt`, and `isSynced: false`.  The
`Partial<DiveLogFormData>` argument is modelled as the function that spreads
it over the form fields. -/
def updatedOf (ex : DiveLog) (patch : DiveLogFormData → DiveLogFormData)
    (now : String) : DiveLog :=
  { ex with form := patch ex.form, updatedAt := now, isSynced := false }

/-- `updateLog` of `src/hooks/useDiveLog.ts`.  Returns `false` when the log
is absent; otherwise saves the update locally, and — like `createLog` — when
online flips `isSynced` without a remote write, when offline queues an
`update` pending upload. -/
def updateLog (id : String) (patch : DiveLogFormData → DiveLogFormData)
    (now pendNow : String) (online : Bool) (st : OfflineState) :
    Bool × OfflineState :=
  match getDiveLogLocal st id with
  | none => (false, st)
  | some existing =>
    let updated := updatedOf existing patch now
    let st1 := saveDiveLogLocal st updated
    if online then
      (true, saveDiveLogLocal st1 (syncedOf updated))
    else
      (true, addPendingUpload OpType.update updated pendNow st1)

/-! ## EXIF extraction model (src/hooks/useExifExtractor.ts) -/

/-- The EXIF fields `processExif` in `src/hooks/useExifExtractor.ts` reads
from the object produced by exifr (client parse) or by the `/api/exif`
server response.  Numeric GPS coordinates are rationals; `none` models an
absent (`undefined`) field.  `GPSTimeStamp` (an array or string in JS) is
modelled by a string, keeping only what the embedded code observes about it:
presence and truthiness. -/
structure ExifInput where
  latitude : Option Rat
  longitude : Option Rat
  gpsLat : Option Rat
  gpsLng : Option Rat
  GPSDateStamp : Option String
  GPSTimeStamp : Option String
  dateTaken : Option String
  DateTimeOriginal : Option String
  CreateDate : Option String
  ModifyDate : Option String
  camera : Option String
  lens : Option String
  make : Option String
  model : Option String
  Make : Option String
  Model : Option String
  LensModel : Option String
deriving DecidableEq

/-- An `ExifInput` with every field absent. -/
def blankExif : ExifInput :=
  ⟨none, none, none, none, none, none, none, none, none,
   none, none, none, none, none, none, none, none⟩

/-- Oracles for the external calls `processExif` makes while reconstructing
`dateTaken`: the tz-lookup library (returning `none` when it throws) and the
three `Date`/`toLocaleString` formatting paths (returning `none` on a parse
failure the source catches). -/
structure DateOracles where
  tzD : Rat → Rat → Option String
  gpsUtcD : String → String → String → Option String
  wallTzD : String → String → Option String
  wallD : String → Option String

/-- Oracles that always fail; used by witnesses. -/
def trivOracles : DateOracles :=
  ⟨fun _ _ => none, fun _ _ _ => none, fun _ _ => none, fun _ => none⟩

/-- The `ExifData` record of `src/hooks/useExifExtractor.ts`. -/
structure ExifData where
  dateTaken : Option String
  gpsLat : Option Rat
  gpsLng : Option Rat
  camera : Option String
  lens : Option String
  make : Option String
  model : Option String
deriving DecidableEq

/-- The `ExifResult` record of `src/hooks/useExifExtractor.ts`. -/
structure ExifResult where
  success : Bool
  data : Option ExifData
  error : Option String
  fileName : String
deriving DecidableEq

/-- JavaScript truthiness of a possibly-absent number: `undefined`, `null`
and `0` are falsy. -/
def truthyQ : Option Rat → Bool
  | none => false
  | some v => v != 0

/-- JavaScript truthiness of a possibly-absent string: `undefined`, `null`
and `""` are falsy. -/
def truthyS : Option String → Bool
  | none => false
  | some s => s != ""

/-- The JS expression `a || b || null` on strings. -/
def orStr (a b : Option String) : Option String :=
  if truthyS a then a else if truthyS b then b else none

/-- First truthy value of a chain `a || b || c || ...` of strings. -/
def firstTruthyS : List (Option String) → Option String
  | [] => none
  | a :: rest => if truthyS a then a else firstTruthyS rest

/-- `processExif` of `src/hooks/useExifExtractor.ts` (lines 102-225).  GPS
coordinates are read only when `allowGpsExtraction` is granted, first from
the exifr fields `latitude`/`longitude`, then from the pre-processed server
fields `gpsLat`/`gpsLng`, each pair guarded by numeric truthiness.  The
timezone is looked up only from truthy extracted coordinates, and
`dateTaken` is rebuilt from GPS UTC date/time when timezone, `GPSDateStamp`
and `GPSTimeStamp` are all truthy, falling back to the wall-clock fields. -/
def processExif (allow : Bool) (orc : DateOracles) (e : ExifInput)
    (fileName : String) : ExifResult :=
  let coords : Option Rat × Option Rat :=
    if allow then
      if truthyQ e.latitude && truthyQ e.longitude then (e.latitude, e.longitude)
      else if truthyQ e.gpsLat && truthyQ e.gpsLng then (e.gpsLat, e.gpsLng)
      else (none, none)
    else (none, none)
  let gpsLat := coords.1
  let gpsLng := coords.2
  let timezone : Option String :=
    if truthyQ gpsLat && truthyQ gpsLng then
      match gpsLat, gpsLng with
      | some a, some b => orc.tzD a b
      | _, _ => none
    else none
  let fromGps : Option String :=
    match timezone, e.GPSDateStamp, e.GPSTimeStamp with
    | some tzv, some gd, some gt =>
      if gd != "" && gt != "" then orc.gpsUtcD tzv gd gt else none
    | _, _, _ => none
  let dateTaken : Option String :=
    match fromGps with
    | some v => some v
    | none =>
      match firstTruthyS [e.dateTaken, e.DateTimeOriginal, e.CreateDate, e.ModifyDate] with
      | some dv =>
        match timezone with
        | some tzv => orc.wallTzD tzv dv
        | none => orc.wallD dv
      | none => none
  { success := true
    data := some ⟨dateTaken, gpsLat, gpsLng, orStr e.camera e.Model,
                  orStr e.lens e.LensModel, orStr e.make e.Make,
                  orStr e.model e.Model⟩
    error := none
    fileName := fileName }

/-- The GPS coordinate pair carried by an extraction result (`(none, none)`
when the result carries no data at all). -/
def resultGps (r : ExifResult) : Option Rat × Option Rat :=
  match r.data with
  | some d => (d.gpsLat, d.gpsLng)
  | none => (none, none)

/-- The `UseExifExtractorConfig` of `src/hooks/useExifExtractor.ts` after
merging with defaults. -/
structure ExtractorConfig where
  allowGpsExtraction : Bool
  maxFileSizeMB : Nat
  allowedTypes : List String
  uploadTimeoutMs : Nat
deriving DecidableEq

/-- `DEFAULT_CONFIG` of `src/hooks/useExifExtractor.ts` (lines 62-67):
privacy-first, GPS extraction off by default. -/
def DEFAULT_CONFIG : ExtractorConfig :=
  ⟨false, 20,
   ["image/jpeg", "image/jpg", "image/png", "image/heic", "image/heif"],
   15000⟩

/-- Outcome of the `/api/exif` server fallback for a given file: a parsed
payload, a timeout (AbortError), or any other failure (non-2xx response,
unsuccessful body, network error). -/
inductive ServerOutcome where
  | ok (e : ExifInput)
  | timeout
  | failed
deriving DecidableEq

/-- A file to extract from, together with what each external parsing attempt
would yield on it: `nativeExif` is the result of the client-side
`exifr.parse` on the file's buffer (`none` when it throws or returns empty),
`server` the outcome of posting it to `/api/exif`. -/
structure FileModel where
  name : String
  type : String
  size : Nat
  nativeExif : Option ExifInput
  server : ServerOutcome
deriving DecidableEq

/-- `String.toLowerCase`, implemented over the character list so that the
kernel can evaluate it. -/
def lowerStr (s : String) : String :=
  ⟨s.data.map Char.toLower⟩

/-- `String.endsWith`, implemented over the character lists so that the
kernel can evaluate it. -/
def endsWithStr (s suffix : String) : Bool :=
  suffix.data.isSuffixOf s.data

/-- HEIC/HEIF detection by (lowercased) file name, as in `validateFile`. -/
def isHeicName (fileName : String) : Bool :=
  endsWithStr fileName ".heic" || endsWithStr fileName ".heif"

/-- `validateFile` of `src/hooks/useExifExtractor.ts`: whitelist check on the
MIME type (HEIC by extension is also accepted), then the size cap.  Returns
`some message` on rejection, `none` when the file may be processed. -/
def validateFile (cfg : ExtractorConfig) (f : FileModel) : Option String :=
  let fileType := lowerStr f.type
  let fileName := lowerStr f.name
  let isHeic := isHeicName fileName
  let isValidType := cfg.allowedTypes.contains fileType || isHeic
  if !isValidType then
    some ("지원하지 않는 파일 형식입니다. (" ++ f.type ++ ")")
  else if f.size > cfg.maxFileSizeMB * 1024 * 1024 then
    some "파일 크기가 너무 큽니다."
  else
    none

/-- The extraction strategies named by the specification. -/
inductive Strategy where
  | nativeParse
  | heicConvert
  | serverFallback
deriving DecidableEq

/-- A failed `ExifResult`. -/
def mkFail (msg fileName : String) : ExifResult :=
  ⟨false, none, some msg, fileName⟩

/-- `extractExif` of `src/hooks/useExifExtractor.ts` (lines 228-310),
instrumented with the list of strategies it attempts, in order.  After
validation it tries the client-side `exifr.parse` on the file's buffer and,
if that fails or comes back empty, posts the raw file to `/api/exif`.  (The
HEIC-to-JPEG conversion retry present in the earlier revision of this hook
no longer exists in it.) -/
def extractExif (cfg : ExtractorConfig) (orc : DateOracles) (f : FileModel) :
    List Strategy × ExifResult :=
  match validateFile cfg f with
  | some msg => ([], mkFail msg f.name)
  | none =>
    match f.nativeExif with
    | some e =>
      ([Strategy.nativeParse], processExif cfg.allowGpsExtraction orc e f.name)
    | none =>
      match f.server with
      | ServerOutcome.ok e =>
        ([Strategy.nativeParse, Strategy.serverFallback],
         processExif cfg.allowGpsExtraction orc e f.name)
      | ServerOutcome.timeout =>
        ([Strategy.nativeParse, Strategy.serverFallback],
         mkFail "서버 응답 시간이 초과되었습니다." f.name)
      | ServerOutcome.failed =>
        ([Strategy.nativeParse, Strategy.serverFallback],
         mkFail "정보를 읽을 수 없습니다." f.name)

/-- A HEIC file whose client-side parse fails and whose server-side parse
succeeds; the input refuting the claimed conversion retry step. -/
def heicStuckFile : FileModel :=
  ⟨"dive.heic", "image/heic", 1024, none, ServerOutcome.ok blankExif⟩

/-- A JPEG file whose client-side parse succeeds. -/
def okJpegFile : FileModel :=
  ⟨"reef.jpg", "image/jpeg", 2048, some blankExif, ServerOutcome.failed⟩

/-- A concrete form-data value used by witnesses. -/
def sampleForm : DiveLogFormData :=
  ⟨"2024-01-01", "Moon Pool", 45, "09:00", "09:45", 18, "air", "", false, false⟩

/-- The empty offline state. -/
def emptyState : OfflineState :=
  ⟨[], [], []⟩


/-! ## Photo batch timing (src/components/PhotoUploader.tsx,
src/app/log/new/page.tsx) -/

/-- An extraction result as the photo pipeline consumes it: only the capture
timestamp matters, modelled as the epoch milliseconds that
`new Date(dateTaken).getTime()` yields, `none` when `data?.dateTaken` is
absent. -/
structure PhotoResult where
  dateMs : Option Int
deriving DecidableEq

/-- The sort key of `handleFiles` in `src/components/PhotoUploader.tsx`:
the capture time, or `0` for a photo without one. -/
def sKey (r : PhotoResult) : Int :=
  r.dateMs.getD 0

/-- The `sort((a, b) => dateB - dateA)` of `handleFiles`: latest photo
first. -/
def sortPhotos (l : List PhotoResult) : List PhotoResult :=
  l.insertionSort (fun a b => sKey b ≤ sKey a)

/-- `Math.round(x / 60000)` on an integer count `x` of milliseconds:
JavaScript rounds half toward positive infinity, which on integers is
`⌊(x + 30000) / 60000⌋`. -/
def roundMinutes (x : Int) : Int :=
  Int.fdiv (x + 30000) 60000

/-- The diving-time computation of `handlePhotosProcessed` in
`src/app/log/new/page.tsx` (lines 135-163): `results[0]` is the latest
photo, `results[results.length - 1]` the oldest; when both carry capture
times the duration is their difference rounded to minutes and floored at 1,
otherwise the default 45 is kept. -/
def divingTime (results : List PhotoResult) : Int :=
  match results.head?, results.getLast? with
  | some latest, some oldest =>
    match latest.dateMs, oldest.dateMs with
    | some tEnd, some tStart => max 1 (roundMinutes (tEnd - tStart))
    | _, _ => 45
  | _, _ => 45

/-! ## Dive-site matcher (dive site library, `findNearestDiveSite`) -/

/-- A reference dive site (the required fields of the `DiveSite` interface;
the bundled `dive-sites.json` dataset itself is not part of the sources, so
sites are passed explicitly). -/
structure GeoSite where
  id : String
  name : String
  lat : Real
  lng : Real
  country : String
  region : String

/-- `Math.atan2(y, x)`, idealized over the reals. -/
noncomputable def atan2 (y x : Real) : Real :=
  if 0 < x then Real.arctan (y / x)
  else if x < 0 then
    (if 0 ≤ y then Real.arctan (y / x) + Real.pi
     else Real.arctan (y / x) - Real.pi)
  else
    (if 0 < y then Real.pi / 2
     else if y < 0 then -(Real.pi / 2)
     else 0)

/-- The intermediate `a` of `haversineDistance`:
`sin²(Δφ/2) + cos φ₁ · cos φ₂ · sin²(Δλ/2)`. -/
noncomputable def havA (lat1 lng1 lat2 lng2 : Real) : Real :=
  Real.sin ((lat2 - lat1) * Real.pi / 180 / 2)
      * Real.sin ((lat2 - lat1) * Real.pi / 180 / 2)
    + Real.cos (lat1 * Real.pi / 180) * Real.cos (lat2 * Real.pi / 180)
      * (Real.sin ((lng2 - lng1) * Real.pi / 180 / 2)
          * Real.sin ((lng2 - lng1) * Real.pi / 180 / 2))

/-- `haversineDistance` of the dive-site library: Earth radius 6,371,000 m
and `c = 2 · atan2(√a, √(1-a))`, idealized over the reals (the source
computes with JavaScript doubles). -/
noncomputable def haversineDistance (lat1 lng1 lat2 lng2 : Real) : Real :=
  6371000 *
    (2 * atan2 (Real.sqrt (havA lat1 lng1 lat2 lng2))
               (Real.sqrt (1 - havA lat1 lng1 lat2 lng2)))

/-- The loop of `findNearestDiveSite`, over an arbitrary per-site distance
in an arbitrary linear order: a site within `maxD` replaces the current
best only when strictly closer, so the first site attaining the minimum
wins ties. -/
def findNearestAux {σ α : Type} [LinearOrder α] (d : σ → α) (maxD : α) :
    List σ → Option (σ × α) → Option (σ × α)
  | [], acc => acc
  | s :: rest, acc =>
    let dist := d s
    let next :=
      if dist ≤ maxD then
        match acc with
        | none => some (s, dist)
        | some c => if dist < c.2 then some (s, dist) else some c
      else acc
    findNearestAux d maxD rest next

/-- The body of one iteration of the `findNearestDiveSite` loop: take the
site when it is within the radius and strictly closer than the current
best (or when there is no current best yet). -/
def nearStep {σ α : Type} [LinearOrder α] (d : σ → α) (maxD : α) (s : σ)
    (acc : Option (σ × α)) : Option (σ × α) :=
  if d s ≤ maxD then
    match acc with
    | none => some (s, d s)
    | some c => if d s < c.2 then some (s, d s) else some c
  else acc

/-- `findNearestDiveSite` of the dive-site library, with the bundled
dataset passed explicitly and the default radius 5000 m written at call
sites. -/
noncomputable def findNearestDiveSite (sites : List GeoSite)
    (lat lng maxDistance : Real) : Option (GeoSite × Real) :=
  findNearestAux (fun s => haversineDistance lat lng s.lat s.lng)
    maxDistance sites none

/-- Specification predicate for the state of `findNearestAux` after it has
processed the sites in `processed`: either nothing was within `maxD`, or
the current best is the first site attaining the minimal distance among
the in-radius sites. -/
def NearSpec {σ α : Type} [LinearOrder α] (d : σ → α) (maxD : α)
    (processed : List σ) : Option (σ × α) → Prop
  | none => ∀ t ∈ processed, ¬ d t ≤ maxD
  | some c =>
    c.2 = d c.1 ∧ c.2 ≤ maxD ∧
      ∃ pre post, processed = pre ++ c.1 :: post ∧
        (∀ t ∈ pre, d t ≤ maxD → c.2 < d t) ∧
        (∀ t ∈ post, d t ≤ maxD → c.2 ≤ d t)

/-- A concrete reference site used by witnesses. -/
noncomputable def moonPool : GeoSite :=
  ⟨"site-1", "Moon Pool", 33.5, 126.5, "KR", "Jeju"⟩


/-! ## Lemmas about the keyed store -/

/-- Replacing-or-inserting a record leaves it in the store. -/
theorem mem_putBy_self {β : Type} (key : β → String) (l : List β) (b : β) :
    b ∈ putBy key l b := by
  unfold putBy
  split
  next h =>
    rw [List.any_eq_true] at h
    obtain ⟨x, hx, hkey⟩ := h
    exact List.mem_map.mpr ⟨x, hx, by simp [hkey]⟩
  next h =>
    exact List.mem_append_right _ (List.mem_singleton.mpr rfl)

/-- Looking a record up after a failing prefix skips the prefix. -/
theorem find?_append_of_none {β : Type} {p : β → Bool} {l1 l2 : List β}
    (h : l1.find? p = none) : (l1 ++ l2).find? p = l2.find? p := by
  induction l1 with
  | nil => simp
  | cons x t ih =>
    rw [List.find?_cons] at h
    rcases hx : p x with _ | _
    · rw [List.cons_append, List.find?_cons, hx]
      rw [hx] at h
      exact ih h
    · rw [hx] at h
      simp at h

/-- After a replace-all pass for key `key b`, looking up that key finds `b`,
provided some record with that key was present. -/
theorem find?_map_rep {β : Type} (key : β → String) (b : β) (l : List β)
    (hany : l.any (fun x => key x == key b) = true) :
    (l.map (fun x => if key x == key b then b else x)).find?
      (fun x => key x == key b) = some b := by
  induction l with
  | nil => simp at hany
  | cons x t ih =>
    rcases hx : (key x == key b) with _ | _
    · rw [List.map_cons, if_neg (by simp [hx])]
      rw [List.find?_cons, hx]
      rw [List.any_cons, hx, Bool.false_or] at hany
      exact ih hany
    · rw [List.map_cons, if_pos (by simp at hx; simp [hx])]
      rw [List.find?_cons]
      simp

/-- Fetching a record by its key right after a `put` of that record returns
exactly that record. -/
theorem find?_putBy {β : Type} (key : β → String) (l : List β) (b : β) :
    (putBy key l b).find? (fun x => key x == key b) = some b := by
  unfold putBy
  split
  next h => exact find?_map_rep key b l h
  next h =>
    have hnone : l.find? (fun x => key x == key b) = none := by
      rw [List.find?_eq_none]
      intro x hx
      rw [Bool.not_eq_true]
      rcases hb : (key x == key b) with _ | _
      · rfl
      · exact absurd (List.any_eq_true.mpr ⟨x, hx, hb⟩) h
    rw [find?_append_of_none hnone]
    simp

/-- A list all of whose keys differ from `key b` filters to nothing under
the key-`b` predicate. -/
theorem filter_eq_nil_of_ne {β : Type} (key : β → String) (b : β)
    (l : List β) (hall : ∀ y ∈ l, key y ≠ key b) :
    l.filter (fun x => key x == key b) = [] := by
  induction l with
  | nil => rfl
  | cons x t ih =>
    rw [List.filter_cons, if_neg (by simp [hall x (by simp)])]
    exact ih (fun y hy => hall y (by simp [hy]))

/-- A replace-all pass over a duplicate-free store leaves exactly one record
under the replaced key. -/
theorem filter_map_rep {β : Type} (key : β → String) (b : β) (l : List β)
    (hpw : l.Pairwise (fun u v => key u ≠ key v))
    (hany : l.any (fun x => key x == key b) = true) :
    (l.map (fun x => if key x == key b then b else x)).filter
      (fun x => key x == key b) = [b] := by
  induction l with
  | nil => simp at hany
  | cons x t ih =>
    rw [List.pairwise_cons] at hpw
    rcases hx : (key x == key b) with _ | _
    · rw [List.map_cons, if_neg (by simp [hx])]
      rw [List.filter_cons, if_neg (by simp [hx])]
      rw [List.any_cons, hx, Bool.false_or] at hany
      exact ih hpw.2 hany
    · simp only [beq_iff_eq] at hx
      rw [List.map_cons, if_pos (by simp [hx])]
      rw [List.filter_cons, if_pos (by simp [hx])]
      have hmap : t.map (fun y => if key y == key b then b else y) = t := by
        conv_rhs => rw [← List.map_id t]
        apply List.map_congr_left
        intro y hy
        have hne : key y ≠ key b := fun hcon => (hpw.1 y hy) (hx.trans hcon.symm)
        simp [hne]
      rw [hmap, filter_eq_nil_of_ne key b t
        (fun y hy hcon => (hpw.1 y hy) (by rw [hcon, hx]))]

/-- On a duplicate-free store, a `put` leaves exactly one record under the
written key. -/
theorem filter_putBy {β : Type} (key : β → String) (l : List β) (b : β)
    (hpw : l.Pairwise (fun u v => key u ≠ key v)) :
    (putBy key l b).filter (fun x => key x == key b) = [b] := by
  unfold putBy
  split
  next h => exact filter_map_rep key b l hpw h
  next h =>
    rw [List.filter_append]
    rw [filter_eq_nil_of_ne key b l]
    · simp
    · intro y hy
      intro hcon
      exact absurd (List.any_eq_true.mpr ⟨y, hy, by simp [hcon]⟩) h

/-- `put` preserves key-uniqueness of the store. -/
theorem pairwise_putBy {β : Type} (key : β → String) (l : List β) (b : β)
    (hpw : l.Pairwise (fun u v => key u ≠ key v)) :
    (putBy key l b).Pairwise (fun u v => key u ≠ key v) := by
  unfold putBy
  split
  next h =>
    rw [List.pairwise_map]
    apply hpw.imp
    intro u v huv
    rcases hu : (key u == key b) with _ | _ <;>
      rcases hv : (key v == key b) with _ | _ <;>
      simp_all
  next h =>
    rw [List.pairwise_append]
    refine ⟨hpw, by simp, ?_⟩
    intro x hx y hy
    rw [List.mem_singleton] at hy
    subst hy
    intro hcon
    exact absurd (List.any_eq_true.mpr ⟨x, hx, by simp [hcon]⟩) h

/-! ## Claims about the offline store -/

/-- C8: saving a dive log and immediately fetching it by its id returns an
object equal to the saved one — `saveDiveLogLocal` itself mutates no field,
so the round-trip is exact. -/
theorem save_then_get_roundtrip (st : OfflineState) (log : DiveLog) :
    getDiveLogLocal (saveDiveLogLocal st log) log.id = some log := by
  show (putBy (fun l => l.id) st.diveLogs log).find? (fun l => l.id == log.id)
    = some log
  exact find?_putBy (fun l => l.id) st.diveLogs log

/-- C5: a dive log created while offline is stored locally — it appears in
`getAllDiveLogsLocal` — and, provided the pending store is duplicate-free,
the pending store afterwards holds exactly one entry under the log's id,
tagged `create` and carrying the enqueue timestamp. -/
theorem createLog_offline_local_and_pending (st : OfflineState)
    (data : DiveLogFormData) (photos : List DivePhoto) (id now pendNow : String)
    (hpw : st.pending.Pairwise (fun u v => u.id ≠ v.id)) :
    (createLog data photos id now pendNow false st).1 ∈
        getAllDiveLogsLocal (createLog data photos id now pendNow false st).2 ∧
      pendingFor (createLog data photos id now pendNow false st).2 id =
        [⟨id, OpType.create, (createLog data photos id now pendNow false st).1,
          pendNow⟩] := by
  constructor
  · exact mem_putBy_self (fun l => l.id) st.diveLogs (mkNewLog data photos id now)
  · exact filter_putBy (fun p : PendingUpload => p.id) st.pending
      ⟨id, OpType.create, mkNewLog data photos id now, pendNow⟩ hpw

/-- Witness for C5 at a concrete offline creation from the empty store. -/
theorem createLog_offline_local_and_pending_witness :
    List.Pairwise (fun u v : PendingUpload => u.id ≠ v.id) emptyState.pending ∧
      ((createLog sampleForm [] "id-1" "t0" "t1" false emptyState).1 ∈
          getAllDiveLogsLocal (createLog sampleForm [] "id-1" "t0" "t1" false emptyState).2 ∧
        pendingFor (createLog sampleForm [] "id-1" "t0" "t1" false emptyState).2 "id-1" =
          [⟨"id-1", OpType.create,
            (createLog sampleForm [] "id-1" "t0" "t1" false emptyState).1, "t1"⟩]) :=
  ⟨List.Pairwise.nil,
   createLog_offline_local_and_pending emptyState sampleForm [] "id-1" "t0" "t1"
     List.Pairwise.nil⟩

/-- C9: the pending-uploads store keeps at most one entry per log id —
`addPendingUpload` writes under the log id as key, so key-uniqueness is
preserved, and two successive queued operations on the same log leave one
single entry carrying the later operation kind and timestamp. -/
theorem pending_store_one_entry_per_id (st : OfflineState)
    (ty1 ty2 : OpType) (log : DiveLog) (n1 n2 : String)
    (hpw : st.pending.Pairwise (fun u v => u.id ≠ v.id)) :
    ((addPendingUpload ty2 log n2 (addPendingUpload ty1 log n1 st)).pending.Pairwise
        (fun u v => u.id ≠ v.id)) ∧
      pendingFor (addPendingUpload ty2 log n2 (addPendingUpload ty1 log n1 st)) log.id =
        [⟨log.id, ty2, log, n2⟩] := by
  constructor
  · exact pairwise_putBy (fun p : PendingUpload => p.id) _ _
      (pairwise_putBy (fun p : PendingUpload => p.id) st.pending _ hpw)
  · show (putBy (fun p => p.id)
        (putBy (fun p => p.id) st.pending ⟨log.id, ty1, log, n1⟩)
        ⟨log.id, ty2, log, n2⟩).filter (fun p => p.id == log.id)
      = [⟨log.id, ty2, log, n2⟩]
    exact filter_putBy (fun p : PendingUpload => p.id) _ ⟨log.id, ty2, log, n2⟩
      (pairwise_putBy (fun p : PendingUpload => p.id) st.pending ⟨log.id, ty1, log, n1⟩ hpw)

/-- Witness for C9: an offline create followed by an offline update of the
same log leaves a single entry, tagged with the update. -/
theorem pending_store_one_entry_per_id_witness :
    List.Pairwise (fun u v : PendingUpload => u.id ≠ v.id) emptyState.pending ∧
      (((addPendingUpload OpType.update (mkNewLog sampleForm [] "id-1" "t0") "t2"
            (addPendingUpload OpType.create (mkNewLog sampleForm [] "id-1" "t0") "t1"
              emptyState)).pending.Pairwise (fun u v => u.id ≠ v.id)) ∧
        pendingFor (addPendingUpload OpType.update (mkNewLog sampleForm [] "id-1" "t0") "t2"
            (addPendingUpload OpType.create (mkNewLog sampleForm [] "id-1" "t0") "t1"
              emptyState)) (mkNewLog sampleForm [] "id-1" "t0").id =
          [⟨(mkNewLog sampleForm [] "id-1" "t0").id, OpType.update,
            mkNewLog sampleForm [] "id-1" "t0", "t2"⟩]) :=
  ⟨List.Pairwise.nil,
   pending_store_one_entry_per_id emptyState OpType.create OpType.update
     (mkNewLog sampleForm [] "id-1" "t0") "t1" "t2" List.Pairwise.nil⟩

/-- C1 counterexample: running `createLog` while online, starting from the
empty store, stores the log with `isSynced = true` although no remote write
ever happened (`remote` is still empty — the Supabase call is a TODO stub)
and enqueues no pending-upload record for this local mutation.  This
refutes the claim that `isSynced` is true only after a confirmed remote
write and that any local mutation enqueues a pending-upload record. -/
theorem createLog_online_synced_without_remote_write :
    ((createLog sampleForm [] "id-1" "t0" "t1" true emptyState).1.isSynced = true) ∧
      getDiveLogLocal (createLog sampleForm [] "id-1" "t0" "t1" true emptyState).2 "id-1" =
        some (createLog sampleForm [] "id-1" "t0" "t1" true emptyState).1 ∧
      (createLog sampleForm [] "id-1" "t0" "t1" true emptyState).2.remote = [] ∧
      (createLog sampleForm [] "id-1" "t0" "t1" true emptyState).2.pending = [] := by
  decide

/-- C1 (amended): every local mutation (`createLog`, `updateLog`) first
writes the log with `isSynced = false`; a pending-upload record keyed by the
log id is enqueued exactly when the mutation runs offline; when it runs
online the hook immediately re-saves the log with `isSynced = true` without
performing any remote write (the Supabase sync is an unimplemented TODO
stub), so `isSynced = true` does not witness a confirmed remote write. -/
theorem localMutation_sync_flag_and_queue (st : OfflineState)
    (data : DiveLogFormData) (photos : List DivePhoto)
    (patch : DiveLogFormData → DiveLogFormData)
    (id now pendNow : String) (online : Bool) :
    ((createLog data photos id now pendNow online st).2.remote = st.remote) ∧
    ((createLog data photos id now pendNow online st).1.isSynced = online) ∧
    (getDiveLogLocal (createLog data photos id now pendNow online st).2 id =
        some (createLog data photos id now pendNow online st).1) ∧
    (online = false →
      pendingEntry (createLog data photos id now pendNow online st).2 id =
        some ⟨id, OpType.create, (createLog data photos id now pendNow online st).1,
              pendNow⟩) ∧
    (online = true →
      (createLog data photos id now pendNow online st).2.pending = st.pending) ∧
    (∀ ex : DiveLog, getDiveLogLocal st id = some ex →
      ((updateLog id patch now pendNow online st).2.remote = st.remote) ∧
      ((updateLog id patch now pendNow online st).1 = true) ∧
      (online = false →
        getDiveLogLocal (updateLog id patch now pendNow online st).2 id =
            some (updatedOf ex patch now) ∧
          (updatedOf ex patch now).isSynced = false ∧
          pendingEntry (updateLog id patch now pendNow online st).2 id =
            some ⟨id, OpType.update, updatedOf ex patch now, pendNow⟩) ∧
      (online = true →
        getDiveLogLocal (updateLog id patch now pendNow online st).2 id =
            some (syncedOf (updatedOf ex patch now)) ∧
          (updateLog id patch now pendNow online st).2.pending = st.pending)) := by
  cases online with
  | false =>
    refine ⟨rfl, rfl, ?_, fun _ => ?_, fun h => by simp at h, ?_⟩
    · show (putBy (fun l => l.id) st.diveLogs (mkNewLog data photos id now)).find?
          (fun l => l.id == id) = some (mkNewLog data photos id now)
      exact find?_putBy (fun l => l.id) st.diveLogs (mkNewLog data photos id now)
    · show (putBy (fun p => p.id) st.pending
          ⟨id, OpType.create, mkNewLog data photos id now, pendNow⟩).find?
          (fun p => p.id == id)
        = some ⟨id, OpType.create, mkNewLog data photos id now, pendNow⟩
      exact find?_putBy (fun p : PendingUpload => p.id) st.pending
        ⟨id, OpType.create, mkNewLog data photos id now, pendNow⟩
    · intro ex hex
      have hid : ex.id = id := by simpa using List.find?_some hex
      simp only [updateLog, hex]
      refine ⟨rfl, rfl, fun _ => ⟨?_, rfl, ?_⟩, fun h => by simp at h⟩
      · show (putBy (fun l => l.id) st.diveLogs (updatedOf ex patch now)).find?
            (fun l => l.id == id) = some (updatedOf ex patch now)
        rw [← hid]
        exact find?_putBy (fun l => l.id) st.diveLogs (updatedOf ex patch now)
      · show (putBy (fun p => p.id) st.pending
            ⟨(updatedOf ex patch now).id, OpType.update, updatedOf ex patch now,
              pendNow⟩).find? (fun p => p.id == id)
          = some ⟨id, OpType.update, updatedOf ex patch now, pendNow⟩
        rw [← hid]
        exact find?_putBy (fun p : PendingUpload => p.id) st.pending
          ⟨ex.id, OpType.update, updatedOf ex patch now, pendNow⟩
  | true =>
    refine ⟨rfl, rfl, ?_, fun h => by simp at h, fun _ => rfl, ?_⟩
    · show (putBy (fun l => l.id)
          (putBy (fun l => l.id) st.diveLogs (mkNewLog data photos id now))
          (syncedOf (mkNewLog data photos id now))).find?
          (fun l => l.id == id)
        = some (syncedOf (mkNewLog data photos id now))
      exact find?_putBy (fun l : DiveLog => l.id)
        (putBy (fun l => l.id) st.diveLogs (mkNewLog data photos id now))
        (syncedOf (mkNewLog data photos id now))
    · intro ex hex
      have hid : ex.id = id := by simpa using List.find?_some hex
      simp only [updateLog, hex]
      refine ⟨rfl, rfl, fun h => by simp at h, fun _ => ⟨?_, rfl⟩⟩
      show (putBy (fun l => l.id)
          (putBy (fun l => l.id) st.diveLogs (updatedOf ex patch now))
          (syncedOf (updatedOf ex patch now))).find?
          (fun l => l.id == id)
        = some (syncedOf (updatedOf ex patch now))
      rw [← hid]
      exact find?_putBy (fun l : DiveLog => l.id)
        (putBy (fun l => l.id) st.diveLogs (updatedOf ex patch now))
        (syncedOf (updatedOf ex patch now))

/-- Witness for the amended C1 at a concrete offline creation from the empty
store. -/
theorem localMutation_sync_flag_and_queue_witness :
    (createLog sampleForm [] "id-1" "t0" "t1" false emptyState).2.remote =
        emptyState.remote ∧
      pendingEntry (createLog sampleForm [] "id-1" "t0" "t1" false emptyState).2 "id-1" =
        some ⟨"id-1", OpType.create,
          (createLog sampleForm [] "id-1" "t0" "t1" false emptyState).1, "t1"⟩ :=
  ⟨(localMutation_sync_flag_and_queue emptyState sampleForm [] (fun f => f)
      "id-1" "t0" "t1" false).1,
   (localMutation_sync_flag_and_queue emptyState sampleForm [] (fun f => f)
      "id-1" "t0" "t1" false).2.2.2.1 rfl⟩

/-! ## Claims about EXIF extraction -/

/-- C4: the GPS consent flag defaults to false, and when consent is withheld
`processExif` returns null coordinates whatever the input file holds; in
particular two runs on arbitrarily different inputs (and oracles) produce
identical coordinate outputs, so without consent the returned coordinates
do not depend on the file's GPS fields. -/
theorem gps_consent_noninterference :
    DEFAULT_CONFIG.allowGpsExtraction = false ∧
    ∀ (orc1 orc2 : DateOracles) (e1 e2 : ExifInput) (fn1 fn2 : String),
      resultGps (processExif false orc1 e1 fn1) = (none, none) ∧
      resultGps (processExif false orc1 e1 fn1) =
        resultGps (processExif false orc2 e2 fn2) :=
  ⟨rfl, fun _ _ _ _ _ _ => ⟨rfl, rfl⟩⟩

/-- C10: a payload whose latitude or longitude is exactly 0 (equator or
prime meridian) and which carries no separately pre-processed
`gpsLat`/`gpsLng` pair yields null coordinates even with consent granted,
because presence is tested by numeric truthiness (`0` is falsy). -/
theorem zero_coordinate_dropped (orc : DateOracles) (e : ExifInput)
    (fn : String)
    (hzero : e.latitude = some 0 ∨ e.longitude = some 0)
    (hsrvLat : e.gpsLat = none) (_hsrvLng : e.gpsLng = none) :
    resultGps (processExif true orc e fn) = (none, none) := by
  have h1 : (truthyQ e.latitude && truthyQ e.longitude) = false := by
    rcases hzero with h | h <;> simp [h, truthyQ]
  have h2 : (truthyQ e.gpsLat && truthyQ e.gpsLng) = false := by
    simp [hsrvLat, truthyQ]
  simp [processExif, resultGps, h1, h2]

/-- Witness for C10: a payload at latitude exactly 0, longitude 50, with
consent granted, comes back with null coordinates. -/
theorem zero_coordinate_dropped_witness :
    ({ blankExif with latitude := some 0, longitude := some 50 } : ExifInput).latitude
        = some 0 ∧
      resultGps (processExif true trivOracles
        { blankExif with latitude := some 0, longitude := some 50 } "photo.jpg")
        = (none, none) :=
  ⟨rfl, zero_coordinate_dropped trivOracles
    { blankExif with latitude := some 0, longitude := some 50 } "photo.jpg"
    (Or.inl rfl) rfl rfl⟩

/-- C3 counterexample: a HEIC file whose client-side native parse fails is
submitted straight to the server-side `/api/exif` endpoint — the claimed
intermediate HEIC-to-JPEG conversion retry is never attempted by the current
extractor. -/
theorem heic_native_failure_goes_straight_to_server :
    isHeicName (lowerStr heicStuckFile.name) = true ∧
      heicStuckFile.nativeExif = none ∧
      (extractExif DEFAULT_CONFIG trivOracles heicStuckFile).1 =
        [Strategy.nativeParse, Strategy.serverFallback] := by
  refine ⟨by decide, rfl, by decide⟩

/-- C3 (amended): for every file, the current extractor attempts (a) the
client-side native parse and then, exactly when that fails, (c) the
server-side `/api/exif` fallback; a HEIC-to-JPEG conversion step is never
attempted (it existed only in an earlier revision of the hook), and nothing
is attempted when validation rejects the file. -/
theorem extractExif_strategy_order (cfg : ExtractorConfig) (orc : DateOracles)
    (f : FileModel) :
    (Strategy.heicConvert ∉ (extractExif cfg orc f).1) ∧
    (validateFile cfg f ≠ none → (extractExif cfg orc f).1 = []) ∧
    (validateFile cfg f = none →
      (f.nativeExif ≠ none → (extractExif cfg orc f).1 = [Strategy.nativeParse]) ∧
      (f.nativeExif = none → (extractExif cfg orc f).1 =
        [Strategy.nativeParse, Strategy.serverFallback])) := by
  rcases hv : validateFile cfg f with _ | msg
  · rcases hn : f.nativeExif with _ | e
    · rcases hs : f.server with e2 | _ | _ <;>
        simp [extractExif, hv, hn, hs]
    · simp [extractExif, hv, hn]
  · simp [extractExif, hv]

/-- Witness for the amended C3: a JPEG whose native parse succeeds attempts
only the native strategy. -/
theorem extractExif_strategy_order_witness :
    validateFile DEFAULT_CONFIG okJpegFile = none ∧
      okJpegFile.nativeExif ≠ none ∧
      (extractExif DEFAULT_CONFIG trivOracles okJpegFile).1 = [Strategy.nativeParse] :=
  ⟨by decide, by decide,
   ((extractExif_strategy_order DEFAULT_CONFIG trivOracles okJpegFile).2.2
      (by decide)).1 (by decide)⟩

/-! ## Lemmas about the photo batch ordering -/

instance sKeyTotal : IsTotal PhotoResult (fun a b => sKey b ≤ sKey a) :=
  ⟨fun a b => le_total (sKey b) (sKey a)⟩

instance sKeyTrans : IsTrans PhotoResult (fun a b => sKey b ≤ sKey a) :=
  ⟨fun _ _ _ h1 h2 => le_trans h2 h1⟩

/-- The head delivered by `head?` is a member. -/
theorem mem_of_head?_eq {α : Type} {l : List α} {a : α}
    (h : l.head? = some a) : a ∈ l := by
  cases l with
  | nil => simp at h
  | cons b t =>
    have hb : b = a := by simpa using h
    subst hb
    exact List.mem_cons_self _ _

/-- The last element delivered by `getLast?` is a member. -/
theorem mem_of_getLast?_eq {α : Type} {l : List α} {a : α}
    (h : l.getLast? = some a) : a ∈ l := by
  induction l with
  | nil => simp at h
  | cons b t ih =>
    cases t with
    | nil =>
      have hb : b = a := by simpa using h
      subst hb
      exact List.mem_cons_self _ _
    | cons c t2 =>
      rw [List.getLast?_cons_cons] at h
      exact List.mem_cons_of_mem _ (ih h)

/-- In a list sorted by descending key, the head has the largest key. -/
theorem sorted_head?_ge (l : List PhotoResult) (h0 : PhotoResult)
    (hs : List.Sorted (fun a b => sKey b ≤ sKey a) l)
    (hh : l.head? = some h0) : ∀ x ∈ l, sKey x ≤ sKey h0 := by
  cases l with
  | nil => simp at hh
  | cons a t =>
    have ha : a = h0 := by simpa using hh
    subst ha
    intro x hx
    rcases List.mem_cons.mp hx with rfl | hxt
    · exact le_refl _
    · exact List.rel_of_sorted_cons hs x hxt

/-- In a list sorted by descending key, the last element has the smallest
key. -/
theorem sorted_getLast?_le (l : List PhotoResult) : ∀ z : PhotoResult,
    List.Sorted (fun a b => sKey b ≤ sKey a) l →
    l.getLast? = some z → ∀ x ∈ l, sKey z ≤ sKey x := by
  induction l with
  | nil =>
    intro z _ hz
    simp at hz
  | cons a t ih =>
    intro z hs hz x hx
    cases t with
    | nil =>
      have hx2 : x = a := by simpa using hx
      have hz2 : a = z := by simpa using hz
      subst hz2
      subst hx2
      exact le_refl _
    | cons b t2 =>
      rw [List.getLast?_cons_cons] at hz
      rcases List.mem_cons.mp hx with rfl | hxt
      · have hzb : sKey z ≤ sKey b :=
          ih z (List.sorted_cons.mp hs).2 hz b (List.mem_cons_self _ _)
        have hba : sKey b ≤ sKey x :=
          List.rel_of_sorted_cons hs b (List.mem_cons_self _ _)
        exact le_trans hzb hba
      · exact ih z (List.sorted_cons.mp hs).2 hz x hxt

/-- C2: on a batch of photo results that all carry capture timestamps, the
uploader's latest-first sort followed by the form page's computation yields
a diving time equal to the span from the earliest to the latest capture
time, converted to minutes (`Math.round` of the millisecond difference) and
floored at 1. -/
theorem divingTime_span (rs : List PhotoResult) (tmax tmin : Int)
    (hall : ∀ r ∈ rs, r.dateMs ≠ none)
    (hmax : (rs.map sKey).maximum = some tmax)
    (hmin : (rs.map sKey).minimum = some tmin) :
    divingTime (sortPhotos rs) = max 1 (roundMinutes (tmax - tmin)) := by
  have hperm : List.Perm (sortPhotos rs) rs :=
    List.perm_insertionSort (fun a b => sKey b ≤ sKey a) rs
  have hsorted : List.Sorted (fun a b => sKey b ≤ sKey a) (sortPhotos rs) :=
    List.sorted_insertionSort (fun a b => sKey b ≤ sKey a) rs
  have hne : rs ≠ [] := by
    intro h
    subst h
    simp at hmax
  have hlne : sortPhotos rs ≠ [] := by
    intro h
    apply hne
    have hlen := hperm.length_eq
    rw [h] at hlen
    exact List.length_eq_zero.mp hlen.symm
  obtain ⟨h0, hh0⟩ : ∃ h0, (sortPhotos rs).head? = some h0 := by
    cases hl : sortPhotos rs with
    | nil => exact absurd hl hlne
    | cons a t => exact ⟨a, by simp⟩
  obtain ⟨z, hz⟩ : ∃ z, (sortPhotos rs).getLast? = some z := by
    cases hl : sortPhotos rs with
    | nil => exact absurd hl hlne
    | cons a t => exact ⟨(a :: t).getLast (by simp), List.getLast?_eq_getLast _ _⟩
  have hh0mem : h0 ∈ rs := hperm.mem_iff.mp (mem_of_head?_eq hh0)
  have hzmem : z ∈ rs := hperm.mem_iff.mp (mem_of_getLast?_eq hz)
  have hkey_h0 : sKey h0 = tmax := by
    apply le_antisymm
    · exact List.le_maximum_of_mem (List.mem_map_of_mem sKey hh0mem) hmax
    · have hmem := List.maximum_mem hmax
      obtain ⟨rr, hrr, hkey⟩ := List.mem_map.mp hmem
      rw [← hkey]
      exact sorted_head?_ge _ h0 hsorted hh0 rr (hperm.mem_iff.mpr hrr)
  have hkey_z : sKey z = tmin := by
    apply le_antisymm
    · have hmem := List.minimum_mem hmin
      obtain ⟨rr, hrr, hkey⟩ := List.mem_map.mp hmem
      rw [← hkey]
      exact sorted_getLast?_le _ z hsorted hz rr (hperm.mem_iff.mpr hrr)
    · exact List.minimum_le_of_mem (List.mem_map_of_mem sKey hzmem) hmin
  obtain ⟨tE, htE⟩ : ∃ t0, h0.dateMs = some t0 := by
    rcases hcase : h0.dateMs with _ | v
    · exact absurd hcase (hall h0 hh0mem)
    · exact ⟨v, rfl⟩
  obtain ⟨tS, htS⟩ : ∃ t0, z.dateMs = some t0 := by
    rcases hcase : z.dateMs with _ | v
    · exact absurd hcase (hall z hzmem)
    · exact ⟨v, rfl⟩
  have htE2 : tE = tmax := by
    rw [← hkey_h0]
    simp [sKey, htE]
  have htS2 : tS = tmin := by
    rw [← hkey_z]
    simp [sKey, htS]
  simp [divingTime, hh0, hz, htE, htS, htE2, htS2]

/-- Witness for C2: two photos taken 45 minutes apart yield a 45-minute
diving time. -/
theorem divingTime_span_witness :
    (∀ r ∈ [(⟨some 0⟩ : PhotoResult), ⟨some 2700000⟩], r.dateMs ≠ none) ∧
      divingTime (sortPhotos [(⟨some 0⟩ : PhotoResult), ⟨some 2700000⟩]) =
        max 1 (roundMinutes (2700000 - 0)) :=
  ⟨by decide,
   divingTime_span [⟨some 0⟩, ⟨some 2700000⟩] 2700000 0 (by decide) (by decide)
     (by decide)⟩

/-! ## Lemmas about the matcher geometry -/

/-- `atan2(0, 1) = 0`. -/
theorem atan2_zero_one : atan2 0 1 = 0 := by
  unfold atan2
  rw [if_pos one_pos]
  norm_num [Real.arctan_zero]

/-- `atan2` of a nonnegative ordinate is nonnegative. -/
theorem atan2_nonneg (y x : Real) (hy : 0 ≤ y) : 0 ≤ atan2 y x := by
  unfold atan2
  by_cases h1 : 0 < x
  · rw [if_pos h1]
    have hm : Real.arctan 0 ≤ Real.arctan (y / x) :=
      Real.arctan_strictMono.monotone (div_nonneg hy h1.le)
    rw [Real.arctan_zero] at hm
    exact hm
  · rw [if_neg h1]
    by_cases h2 : x < 0
    · rw [if_pos h2, if_pos hy]
      have hgt := Real.neg_pi_div_two_lt_arctan (y / x)
      have hpi := Real.pi_pos
      linarith
    · rw [if_neg h2]
      by_cases h4 : 0 < y
      · rw [if_pos h4]
        have hpi := Real.pi_pos
        linarith
      · rw [if_neg h4, if_neg (not_lt.mpr hy)]

/-- The haversine `a` term vanishes at coinciding coordinates. -/
theorem havA_self (lat lng : Real) : havA lat lng lat lng = 0 := by
  unfold havA
  simp [sub_self]

/-- `haversineDistance` from a point to itself is exactly 0. -/
theorem haversine_self (lat lng : Real) :
    haversineDistance lat lng lat lng = 0 := by
  unfold haversineDistance
  rw [havA_self, Real.sqrt_zero, sub_zero, Real.sqrt_one, atan2_zero_one]
  ring

/-- `haversineDistance` is nonnegative. -/
theorem haversine_nonneg (lat1 lng1 lat2 lng2 : Real) :
    0 ≤ haversineDistance lat1 lng1 lat2 lng2 := by
  unfold haversineDistance
  have h := atan2_nonneg (Real.sqrt (havA lat1 lng1 lat2 lng2))
    (Real.sqrt (1 - havA lat1 lng1 lat2 lng2)) (Real.sqrt_nonneg _)
  have h2 : (0 : Real) ≤ 2 * atan2 (Real.sqrt (havA lat1 lng1 lat2 lng2))
      (Real.sqrt (1 - havA lat1 lng1 lat2 lng2)) := by linarith
  exact mul_nonneg (by norm_num) h2

/-! ## Lemmas about the selection loop -/

/-- One loop step preserves the first-minimum invariant. -/
theorem nearSpec_step {σ α : Type} [LinearOrder α] (d : σ → α) (maxD : α)
    (s : σ) (processed : List σ) (acc : Option (σ × α))
    (h : NearSpec d maxD processed acc) :
    NearSpec d maxD (processed ++ [s]) (nearStep d maxD s acc) := by
  cases acc with
  | none =>
    show NearSpec d maxD (processed ++ [s])
      (if d s ≤ maxD then some (s, d s) else none)
    by_cases hs : d s ≤ maxD
    · rw [if_pos hs]
      refine ⟨rfl, hs, processed, [], rfl, ?_, ?_⟩
      · intro t ht hin
        exact absurd hin (h t ht)
      · intro t ht
        simp at ht
    · rw [if_neg hs]
      intro t ht
      rcases List.mem_append.mp ht with htp | hts
      · exact h t htp
      · rcases List.mem_singleton.mp hts with rfl
        exact hs
  | some c =>
    show NearSpec d maxD (processed ++ [s])
      (if d s ≤ maxD then (if d s < c.2 then some (s, d s) else some c)
       else some c)
    obtain ⟨hceq, hcle, pre, post, hdecomp, hpre, hpost⟩ := h
    by_cases hs : d s ≤ maxD
    · rw [if_pos hs]
      by_cases hlt : d s < c.2
      · rw [if_pos hlt]
        refine ⟨rfl, hs, processed, [], rfl, ?_, ?_⟩
        · intro t ht hin
          subst hdecomp
          rcases List.mem_append.mp ht with htpre | htc
          · exact lt_trans hlt (hpre t htpre hin)
          · rcases List.mem_cons.mp htc with rfl | htpost
            · rw [← hceq]
              exact hlt
            · exact lt_of_lt_of_le hlt (hpost t htpost hin)
        · intro t ht
          simp at ht
      · rw [if_neg hlt]
        refine ⟨hceq, hcle, pre, post ++ [s], by rw [hdecomp]; simp, hpre, ?_⟩
        intro t ht hin
        rcases List.mem_append.mp ht with htpost | hts
        · exact hpost t htpost hin
        · rcases List.mem_singleton.mp hts with rfl
          exact not_lt.mp hlt
    · rw [if_neg hs]
      refine ⟨hceq, hcle, pre, post ++ [s], by rw [hdecomp]; simp, hpre, ?_⟩
      intro t ht hin
      rcases List.mem_append.mp ht with htpost | hts
      · exact hpost t htpost hin
      · rcases List.mem_singleton.mp hts with rfl
        exact absurd hin hs

/-- The loop of `findNearestDiveSite` maintains the first-minimum invariant
over the processed prefix. -/
theorem nearAux_spec {σ α : Type} [LinearOrder α] (d : σ → α) (maxD : α) :
    ∀ (l processed : List σ) (acc : Option (σ × α)),
      NearSpec d maxD processed acc →
      NearSpec d maxD (processed ++ l) (findNearestAux d maxD l acc) := by
  intro l
  induction l with
  | nil =>
    intro processed acc h
    rw [List.append_nil]
    exact h
  | cons s rest ih =>
    intro processed acc h
    have hstep := nearSpec_step d maxD s processed acc h
    have hrec := ih (processed ++ [s]) (nearStep d maxD s acc) hstep
    rw [List.append_assoc, List.singleton_append] at hrec
    exact hrec

/-- Processing an append runs the loop in sequence. -/
theorem nearAux_append {σ α : Type} [LinearOrder α] (d : σ → α) (maxD : α) :
    ∀ (l1 l2 : List σ) (acc : Option (σ × α)),
      findNearestAux d maxD (l1 ++ l2) acc =
        findNearestAux d maxD l2 (findNearestAux d maxD l1 acc) := by
  intro l1
  induction l1 with
  | nil =>
    intro l2 acc
    rfl
  | cons s rest ih =>
    intro l2 acc
    exact ih l2 _

/-- A current best that no site can strictly beat survives the rest of the
loop. -/
theorem nearAux_absorb {σ α : Type} [LinearOrder α] (d : σ → α) (maxD : α)
    (c : σ × α) (hmin : ∀ t, ¬ d t < c.2) :
    ∀ l : List σ, findNearestAux d maxD l (some c) = some c := by
  intro l
  induction l with
  | nil => rfl
  | cons s rest ih =>
    show findNearestAux d maxD rest
      (if d s ≤ maxD then (if d s < c.2 then some (s, d s) else some c)
       else some c) = some c
    by_cases hs : d s ≤ maxD
    · rw [if_pos hs, if_neg (hmin s)]
      exact ih
    · rw [if_neg hs]
      exact ih

/-- Starting from an empty accumulator, the loop returns the first site
attaining the global minimum `m` of the distances, provided that minimum is
within the radius and no earlier site attains it. -/
theorem nearAux_first_min {σ α : Type} [LinearOrder α] (d : σ → α) (maxD : α)
    (s : σ) (pre post : List σ) (m : α)
    (hmin : ∀ t, m ≤ d t) (hzero : d s = m) (hmax : m ≤ maxD)
    (hpre : ∀ t ∈ pre, d t ≠ m) :
    findNearestAux d maxD (pre ++ s :: post) none = some (s, m) := by
  rw [nearAux_append]
  have hspec := nearAux_spec d maxD pre [] none
    (fun t ht => absurd ht (List.not_mem_nil t))
  rw [List.nil_append] at hspec
  rcases hacc : findNearestAux d maxD pre none with _ | c
  · show findNearestAux d maxD post
      (if d s ≤ maxD then some (s, d s) else none) = some (s, m)
    rw [hzero, if_pos hmax]
    exact nearAux_absorb d maxD (s, m) (fun t => not_lt.mpr (hmin t)) post
  · rw [hacc] at hspec
    obtain ⟨hceq, hcle, pre1, post1, hdec1, hpre1, hpost1⟩ := hspec
    have hc_mem : c.1 ∈ pre := by
      rw [hdec1]
      exact List.mem_append_right _ (List.mem_cons_self _ _)
    have hcgt : m < c.2 := by
      refine lt_of_le_of_ne (hceq ▸ hmin c.1) ?_
      rw [hceq]
      exact fun hcon => (hpre c.1 hc_mem) hcon.symm
    show findNearestAux d maxD post
      (if d s ≤ maxD then (if d s < c.2 then some (s, d s) else some c)
       else some c) = some (s, m)
    rw [hzero, if_pos hmax, if_pos hcgt]
    exact nearAux_absorb d maxD (s, m) (fun t => not_lt.mpr (hmin t)) post

/-! ## Claims about the dive-site matcher -/

/-- C6: `findNearestDiveSite` returns `none` exactly when no site lies
within the radius, and otherwise the first-encountered site attaining the
strictly smallest haversine distance among the in-radius sites, with its
distance: every in-radius site before it is strictly farther (ties are won
by the earlier site) and every in-radius site after it is at least as far. -/
theorem findNearestDiveSite_characterization (sites : List GeoSite)
    (lat lng maxD : Real) :
    (findNearestDiveSite sites lat lng maxD = none →
      ∀ t ∈ sites, ¬ haversineDistance lat lng t.lat t.lng ≤ maxD) ∧
    ((∀ t ∈ sites, ¬ haversineDistance lat lng t.lat t.lng ≤ maxD) →
      findNearestDiveSite sites lat lng maxD = none) ∧
    (∀ s ds, findNearestDiveSite sites lat lng maxD = some (s, ds) →
      ds = haversineDistance lat lng s.lat s.lng ∧
      ds ≤ maxD ∧
      ∃ pre post, sites = pre ++ s :: post ∧
        (∀ t ∈ pre, haversineDistance lat lng t.lat t.lng ≤ maxD →
          ds < haversineDistance lat lng t.lat t.lng) ∧
        (∀ t ∈ post, haversineDistance lat lng t.lat t.lng ≤ maxD →
          ds ≤ haversineDistance lat lng t.lat t.lng)) := by
  have hspec := nearAux_spec
    (fun t : GeoSite => haversineDistance lat lng t.lat t.lng) maxD sites [] none
    (fun t ht => absurd ht (List.not_mem_nil t))
  rw [List.nil_append] at hspec
  refine ⟨?_, ?_, ?_⟩
  · intro hnone t ht
    unfold findNearestDiveSite at hnone
    rw [hnone] at hspec
    exact hspec t ht
  · intro hall
    unfold findNearestDiveSite
    rcases hr : findNearestAux
        (fun t : GeoSite => haversineDistance lat lng t.lat t.lng) maxD sites none
      with _ | c
    · rfl
    · rw [hr] at hspec
      obtain ⟨hceq, hcle, pre, post, hdecomp, hp1, hp2⟩ := hspec
      have hmem : c.1 ∈ sites := by
        rw [hdecomp]
        exact List.mem_append_right _ (List.mem_cons_self _ _)
      have hle : (fun t : GeoSite => haversineDistance lat lng t.lat t.lng) c.1
          ≤ maxD := hceq ▸ hcle
      exact ((hall c.1 hmem) hle).elim
  · intro s ds hsome
    unfold findNearestDiveSite at hsome
    rw [hsome] at hspec
    exact hspec

/-- Witness for C6 at a one-site dataset queried at that site's own
coordinates. -/
theorem findNearestDiveSite_characterization_witness :
    findNearestDiveSite [moonPool] moonPool.lat moonPool.lng 5000 =
        some (moonPool, 0) ∧
      (0 : Real) = haversineDistance moonPool.lat moonPool.lng moonPool.lat moonPool.lng ∧
      (0 : Real) ≤ 5000 := by
  have hfind : findNearestDiveSite [moonPool] moonPool.lat moonPool.lng 5000 =
      some (moonPool, 0) := by
    unfold findNearestDiveSite
    exact nearAux_first_min
      (fun t : GeoSite => haversineDistance moonPool.lat moonPool.lng t.lat t.lng)
      5000 moonPool [] [] 0
      (fun t => haversine_nonneg _ _ _ _) (haversine_self _ _) (by norm_num)
      (fun t ht => absurd ht (List.not_mem_nil t))
  refine ⟨hfind, ?_, ?_⟩
  · exact ((findNearestDiveSite_characterization [moonPool] moonPool.lat
      moonPool.lng 5000).2.2 moonPool 0 hfind).1
  · exact ((findNearestDiveSite_characterization [moonPool] moonPool.lat
      moonPool.lng 5000).2.2 moonPool 0 hfind).2.1

/-- C7: querying `findNearestDiveSite` at a dataset site's own coordinates
with the default 5000 m radius returns that site at distance exactly 0,
provided no site listed before it sits at haversine distance 0 from it
(with duplicated coordinates the first duplicate would win). -/
theorem findNearestDiveSite_own_coordinates (sites pre post : List GeoSite)
    (s : GeoSite) (hdecomp : sites = pre ++ s :: post)
    (hpre : ∀ t ∈ pre, haversineDistance s.lat s.lng t.lat t.lng ≠ 0) :
    findNearestDiveSite sites s.lat s.lng 5000 = some (s, 0) := by
  subst hdecomp
  unfold findNearestDiveSite
  exact nearAux_first_min
    (fun t : GeoSite => haversineDistance s.lat s.lng t.lat t.lng) 5000 s pre
    post 0 (fun t => haversine_nonneg _ _ _ _) (haversine_self _ _)
    (by norm_num) hpre

/-- Witness for C7 on a concrete one-site dataset. -/
theorem findNearestDiveSite_own_coordinates_witness :
    ([moonPool] : List GeoSite) = [] ++ moonPool :: [] ∧
      findNearestDiveSite [moonPool] moonPool.lat moonPool.lng 5000 =
        some (moonPool, 0) :=
  ⟨rfl, findNearestDiveSite_own_coordinates [moonPool] [] [] moonPool rfl
    (fun t ht => absurd ht (List.not_mem_nil t))⟩
